import Mathlib

/-!
Verification of the model-introspection engine in `stranal_app/utility.py`:
schema generation (`generate_schema`), the uniqueness-checking validator
(`Validator`), the recursive exporter (`ExportData` / `export_from_sqla_object`)
and document application (`import_into_sqla_object`), shallowly embedded in
Lean 4.
-/

namespace StranalApp

/-- Python-level type of a column (`column.type.python_type`). The engine maps
exactly `int`, `str`, `bool`, `datetime.date` and `datetime.datetime`; every
other python type is represented by `other`. -/
inductive PyType where
  | int
  | str
  | bool
  | date
  | datetime
  | other
deriving DecidableEq, Repr

/-- The `schema_type_conversions` dictionary of `utility.py` (lines 138-144):
`{int: "integer", str: "string", bool: "boolean", date: "string",
datetime: "string"}`; `.get` on a missing key yields `None`. -/
def schema_type_conversions : PyType → Option String
  | .int => some "integer"
  | .str => some "string"
  | .bool => some "boolean"
  | .date => some "string"
  | .datetime => some "string"
  | .other => none

/-- The `default` attribute of a SQLAlchemy column: either `None`
(`noDefault`), or a `ColumnDefault` whose `.arg` is a python `int`, `str` or
`bool` scalar, or a `ColumnDefault` whose `.arg` is anything else (callable,
SQL clause, ...), represented by `nonScalar`. -/
inductive DefaultArg where
  | noDefault
  | scalarInt (n : Int)
  | scalarStr (s : String)
  | scalarBool (b : Bool)
  | nonScalar
deriving DecidableEq, Repr

/-- The column metadata that `generate_schema`, `_get_column_default` and
`ExportData` read off a SQLAlchemy `Column`: name, `type.python_type`,
`type.length`, `primary_key`, `nullable`, `default`, whether `server_default`
is set, and `unique`. -/
structure Column where
  name : String
  pythonType : PyType
  length : Option Nat
  primary_key : Bool
  nullable : Bool
  default : DefaultArg
  server_default : Bool
  unique : Bool
deriving DecidableEq, Repr

/-- A Cerberus rule-set for one field, as built by `generate_schema`:
the mandatory `type` rule, and the optional `maxlength`, `readonly`,
`required` and `unique` rules.  A `Bool` field set to `false` models the
absence of the corresponding key in the python dict (the code only ever
stores `True`). -/
structure RuleSet where
  type : String
  maxlength : Option Nat
  readonly : Bool
  required : Bool
  unique : Bool
deriving DecidableEq, Repr

/-- The rule-set `generate_schema` builds for a single selected column
(`utility.py` lines 192-223), faithful to the source, including the fact that
the `maxlength` rule at lines 201-206 is guarded by
`"readonly" not in exclude_rules` rather than by `"maxlength"`. -/
def column_prop (exclude_rules : List String) (c : Column) : Except String RuleSet :=
  match schema_type_conversions c.pythonType with
  | none => .error "Unable to determine the column type"
  | some t =>
    .ok
      { type := t
      , maxlength :=
          if "readonly" ∉ exclude_rules ∧ c.pythonType = PyType.str ∧ c.length.isSome
          then c.length else none
      , readonly :=
          if "readonly" ∉ exclude_rules ∧ c.primary_key = true then true else false
      , required :=
          if "required" ∉ exclude_rules ∧ c.default = DefaultArg.noDefault ∧
             c.server_default = false ∧ c.nullable = false ∧ c.primary_key = false
          then true else false
      , unique :=
          if "unique" ∉ exclude_rules ∧ c.unique = true then true else false }

/-- `generate_schema(model_class, include, exclude, exclude_rules)` of
`utility.py` lines 147-225: iterate the mapper's columns in order, skip a
column when `include` is non-empty and the name is not in it or when the name
is in `exclude`, raise `LookupError` when the python type has no conversion,
and otherwise record the derived rule-set under the column name. -/
def generate_schema :
    List Column → List String → List String → List String →
    Except String (List (String × RuleSet))
  | [], _, _, _ => .ok []
  | c :: rest, incl, excl, ers =>
    if (incl.length > 0 ∧ c.name ∉ incl) ∨ c.name ∈ excl then
      generate_schema rest incl excl ers
    else
      match column_prop ers c with
      | .error e => .error e
      | .ok rs =>
        match generate_schema rest incl excl ers with
        | .error e => .error e
        | .ok s => .ok ((c.name, rs) :: s)

/-- A python value as handled by the engine: `None`, the scalar types the
engine knows, nested dicts (exported instances) and lists (exported
collections). -/
inductive Value where
  | vnone
  | vint (n : Int)
  | vstr (s : String)
  | vbool (b : Bool)
  | vdict (fields : List (String × Value))
  | vlist (items : List Value)
deriving Repr

/-- `value is None` in python. -/
def Value.isNone : Value → Bool
  | .vnone => true
  | _ => false

/-- `_get_column_default(c)` (`utility.py` lines 38-40): the default's `.arg`
when that is a python `int`, `str` or `bool` scalar, and `None` in every
other case (no default object, or a non-scalar `.arg`). -/
def get_column_default (c : Column) : Value :=
  match c.default with
  | .scalarInt n => .vint n
  | .scalarStr s => .vstr s
  | .scalarBool b => .vbool b
  | .noDefault => .vnone
  | .nonScalar => .vnone

mutual
/-- A live SQLAlchemy model instance as read by `ExportData.__call__`: its
persistence flag (`inspect(obj).persistent`), its mapper's columns paired
with the live attribute values (`getattr(obj, name)`), and its mapper's
relationship keys paired with their current state. -/
inductive Obj where
  | mk (persisted : Bool) (cols : List (Column × Value)) (rels : List (String × RelProp))

/-- The state of one relationship of a live instance: unloaded (its key is in
`inspect(obj).unloaded`); loaded with value `None`; loaded with a single
related instance that has no custom `export_data` method; loaded with a
to-many `InstrumentedList` of related instances; or loaded with an object
carrying its own `export_data` method, whose result is the attached value. -/
inductive RelProp where
  | unloaded
  | loadedNone
  | loadedOne (o : Obj)
  | loadedMany (objs : List Obj)
  | custom (v : Value)
end

mutual
/-- `ExportData.__call__(obj, include, exclude)` on a single instance
(`utility.py` lines 86-127), with `g` the instance-level `self.exclude`.
The effective exclusion is `tuple(exclude) + self.exclude`; each column
passing the include/exclude filter is emitted — the live value when
persisted, otherwise the scalar column default when the live value is `None`
— and, when persisted, the loaded not-excluded relationships are appended. -/
def exportObj (g : List String) : Obj → List String → List String → List (String × Value)
  | .mk persisted cols rels, incl, excl =>
    let ex := excl ++ g
    let colData := cols.filterMap (fun cv =>
      if (incl = [] ∨ cv.1.name ∈ incl) ∧ cv.1.name ∉ ex then
        some (cv.1.name,
          if persisted then cv.2
          else if cv.2.isNone then get_column_default cv.1 else cv.2)
      else none)
    if persisted then colData ++ exportRels g ex rels else colData

/-- The relationship loop of `ExportData.__call__` (`utility.py` lines
109-125): skip unloaded or excluded keys; prefer a custom `export_data`;
otherwise a falsy property (`None`, or an empty collection) leaves the
initial `None` in place, and a truthy one is exported recursively with
default (empty) include/exclude arguments. -/
def exportRels (g ex : List String) : List (String × RelProp) → List (String × Value)
  | [] => []
  | (_, RelProp.unloaded) :: rest => exportRels g ex rest
  | (key, RelProp.loadedNone) :: rest =>
    (if key ∈ ex then [] else [(key, Value.vnone)]) ++ exportRels g ex rest
  | (key, RelProp.custom v) :: rest =>
    (if key ∈ ex then [] else [(key, v)]) ++ exportRels g ex rest
  | (key, RelProp.loadedOne o) :: rest =>
    (if key ∈ ex then [] else [(key, Value.vdict (exportObj g o [] []))]) ++
      exportRels g ex rest
  | (key, RelProp.loadedMany []) :: rest =>
    (if key ∈ ex then [] else [(key, Value.vnone)]) ++ exportRels g ex rest
  | (key, RelProp.loadedMany (o :: os)) :: rest =>
    (if key ∈ ex then [] else [(key, Value.vlist (exportMany g (o :: os)))]) ++
      exportRels g ex rest

/-- The list branch of `ExportData.__call__` (`utility.py` lines 75-84) as
reached from the relationship walk for members lacking a custom
`export_data`: the first member raises `AttributeError`, the probe
`hasattr(obj[0], "export_data")` fails, and each member is exported by
`self(item, include, exclude)` where this inner call received empty
include/exclude. -/
def exportMany (g : List String) : List Obj → List Value
  | [] => []
  | o :: os => Value.vdict (exportObj g o [] []) :: exportMany g os
end

/-- The module-level exporter instance (`utility.py` line 135):
`export_from_sqla_object = ExportData(exclude=("org_id",))`. -/
def export_from_sqla_object (obj : Obj) (incl excl : List String) :
    List (String × Value) :=
  exportObj ["org_id"] obj incl excl

/-- The `RuntimeError` message of `Validator._validate_unique` (`utility.py`
lines 249-253). -/
def uniqueRuleErrorMsg : String :=
  "The rule `unique` needs a SQLAlchemy declarative class to perform queries to check if the value being validated is unique. Provide a class in Validator constructor."

/-- The uniqueness-lookup capability,
`model_class.query.filter_by(field=value).first()`: an optional matched
instance, identified by python object identity (modelled as `Nat`). -/
def Lookup : Type := String → Value → Option Nat

/-- `Validator._validate_unique(is_unique, field, value)` (`utility.py` lines
239-259), with the surrounding state explicit: `self.model_class` (the
optional lookup capability), Cerberus's `self.update` flag, and `self.model`
(the current instance, set by `validate`).  The raised `RuntimeError` is
modelled by `Except.error`; a recorded violation (`self._error`) by a
nonempty violation list. -/
def validate_unique (model_class : Option Lookup) (update : Bool)
    (model : Option Nat) (is_unique : Bool) (field : String) (value : Value) :
    Except String (List (String × String)) :=
  if is_unique then
    match model_class with
    | none => .error uniqueRuleErrorMsg
    | some lookup =>
      match lookup field value with
      | some found =>
        if update = false ∨ some found ≠ model then
          .ok [(field, "Must be unique, but the value already exists")]
        else .ok []
      | none => .ok []
  else .ok []

/-- Modelled from the spec: Cerberus's per-field type check (the dispatch of
the third-party validation library is not part of this repository's sources).
Section 4.3: the value must be compatible with the declared semantic type;
the engine only emits the labels integer, string and boolean. -/
def typeMatches : String → Value → Bool
  | "integer", Value.vint _ => true
  | "string", Value.vstr _ => true
  | "boolean", Value.vbool _ => true
  | _, _ => false

/-- Modelled from the spec: the per-field rule checks of §4.3 for a field
present in the document (type, maxlength, readonly on update), with the
uniqueness check taken from `Validator._validate_unique` in the source. -/
def checkField (model_class : Option Lookup) (update : Bool) (model : Option Nat)
    (rs : RuleSet) (field : String) (v : Value) : List (String × String) :=
  (if typeMatches rs.type v then [] else [(field, "type")]) ++
  (match rs.maxlength, v with
   | some n, Value.vstr s => if n < s.length then [(field, "maxlength")] else []
   | _, _ => []) ++
  (if rs.readonly ∧ update then [(field, "readonly")] else []) ++
  (if rs.unique then
    match model_class with
    | none => []
    | some lookup =>
      match lookup field v with
      | some found =>
        if update = false ∨ some found ≠ model then [(field, "unique")] else []
      | none => []
  else [])

/-- Modelled from the spec: the `required` rule of §4.3 — a violation for
every schema field carrying `required` that is absent from the document. -/
def requiredViolations (schema : List (String × RuleSet))
    (document : List (String × Value)) : List (String × String) :=
  schema.filterMap (fun p =>
    if p.2.required ∧ p.1 ∉ document.map Prod.fst then some (p.1, "required")
    else none)

/-- Modelled from the spec: the dispatch loop of the third-party Cerberus
`Validator.validate` (absent from this repository's sources; only the
subclass hooks of `utility.py` lines 228-259 are present).  Per §4.3 and the
§8 scenario, a requested `unique` rule with no lookup capability surfaces a
configuration error immediately, before any field is checked; otherwise
document fields unknown to the schema are ignored, each known field is
checked against its rule-set, absent required fields are violations, and the
uniqueness check follows `Validator._validate_unique` from the source. -/
def validate (schema : List (String × RuleSet)) (model_class : Option Lookup)
    (document : List (String × Value)) (model : Option Nat) (update : Bool) :
    Except String (List (String × String)) :=
  if schema.any (fun p => p.2.unique) ∧ model_class.isNone then
    .error uniqueRuleErrorMsg
  else
    .ok ((document.foldr (fun kv acc =>
      match (schema.find? (fun p => p.1 = kv.1)).map Prod.snd with
      | none => acc
      | some rs => checkField model_class update model rs kv.1 kv.2 ++ acc) []) ++
      requiredViolations schema document)

/-- `import_into_sqla_object(model_instance, data)` (`utility.py` lines
18-35): iterate the keys of `data` in order and `setattr` exactly those that
are column names of the model (`key in mapper.c`); the instance is modelled
as a total assignment of attribute names to values. -/
def import_into_sqla_object (columns : List String) (inst : String → Value)
    (data : List (String × Value)) : String → Value :=
  data.foldl (fun acc kv =>
    if kv.1 ∈ columns then (fun name => if name = kv.1 then kv.2 else acc name)
    else acc) inst

/-- The `id` column of the spec's `User` example: integer primary key. -/
def idColumn : Column :=
  ⟨"id", PyType.int, none, true, false, DefaultArg.noDefault, false, false⟩

/-- The `email` column of the spec's `User` example: string, unique,
maxlength 120, non-nullable, no default. -/
def emailColumn : Column :=
  ⟨"email", PyType.str, some 120, false, false, DefaultArg.noDefault, false, true⟩

/-- The `active` column of the spec's `User` example: boolean with static
default `False`. -/
def activeColumn : Column :=
  ⟨"active", PyType.bool, none, false, true, DefaultArg.scalarBool false, false, false⟩

/-- A column whose python type has no entry in `schema_type_conversions`
(e.g. a `Float` column). -/
def scoreColumn : Column :=
  ⟨"score", PyType.other, none, false, false, DefaultArg.noDefault, false, false⟩

/-- An unpersisted `User()` with no attribute set: every live value is
`None`. -/
def userUnpersisted : Obj :=
  Obj.mk false
    [(idColumn, Value.vnone), (emailColumn, Value.vnone), (activeColumn, Value.vnone)]
    []

/-- A persisted instance whose only relationship is a loaded, empty to-many
collection. -/
def postsEmptyObj : Obj :=
  Obj.mk true [] [("posts", RelProp.loadedMany [])]

/-- Every entry of a successfully generated schema comes from a selected
column of the model, via `column_prop`. -/
theorem generate_schema_mem {cols : List Column} {incl excl ers : List String}
    {s : List (String × RuleSet)}
    (h : generate_schema cols incl excl ers = .ok s) :
    ∀ p ∈ s, ∃ c ∈ cols,
      p.1 = c.name ∧
      ((incl.length > 0 ∧ c.name ∉ incl) ∨ c.name ∈ excl) = False ∧
      column_prop ers c = .ok p.2 := by
  induction cols generalizing s with
  | nil =>
    simp only [generate_schema, Except.ok.injEq] at h
    subst h
    intro p hp
    simp at hp
  | cons c rest ih =>
    by_cases hsel : (incl.length > 0 ∧ c.name ∉ incl) ∨ c.name ∈ excl
    · rw [generate_schema, if_pos hsel] at h
      intro p hp
      obtain ⟨c', hc', hrest⟩ := ih h p hp
      exact ⟨c', List.mem_cons_of_mem _ hc', hrest⟩
    · rw [generate_schema, if_neg hsel] at h
      cases hcp : column_prop ers c with
      | error e => rw [hcp] at h; exact absurd h (by simp)
      | ok rs =>
        rw [hcp] at h
        cases hrec : generate_schema rest incl excl ers with
        | error e => rw [hrec] at h; exact absurd h (by simp)
        | ok s' =>
          rw [hrec] at h
          simp only [Except.ok.injEq] at h
          subst h
          intro p hp
          rcases List.mem_cons.mp hp with hhead | htail
          · subst hhead
            exact ⟨c, List.mem_cons_self c rest, rfl, by simp [hsel], hcp⟩
          · obtain ⟨c', hc', hrest⟩ := ih hrec p htail
            exact ⟨c', List.mem_cons_of_mem _ hc', hrest⟩

/-- With empty `include` and `exclude` lists no column is skipped: a
successfully generated schema lists exactly the column names of the model, in
column order. -/
theorem generate_schema_keys {cols : List Column} {ers : List String}
    {s : List (String × RuleSet)}
    (h : generate_schema cols [] [] ers = .ok s) :
    s.map Prod.fst = cols.map Column.name := by
  induction cols generalizing s with
  | nil =>
    simp only [generate_schema, Except.ok.injEq] at h
    subst h
    simp
  | cons c rest ih =>
    rw [generate_schema, if_neg (by simp)] at h
    cases hcp : column_prop ers c with
    | error e => rw [hcp] at h; exact absurd h (by simp)
    | ok rs =>
      rw [hcp] at h
      cases hrec : generate_schema rest [] [] ers with
      | error e => rw [hrec] at h; exact absurd h (by simp)
      | ok s' =>
        rw [hrec] at h
        simp only [Except.ok.injEq] at h
        subst h
        simp [ih hrec]


/-- C1: For every entity descriptor and every field of it selected into the
generated schema, when the `required` rule kind is not suppressed the
rule-set has `required: true` iff the field has no default value, no
server-assigned default, is not nullable, and is not a primary key; and for
every field marked primary key the generated rule-set never contains
`required: true`, regardless of nullability and of the excluded rule
kinds. -/
theorem generate_schema_required_iff
    (cols : List Column) (incl excl ers : List String)
    (s : List (String × RuleSet))
    (h : generate_schema cols incl excl ers = .ok s)
    (p : String × RuleSet) (hp : p ∈ s) :
    ∃ c ∈ cols, p.1 = c.name ∧
      ("required" ∉ ers →
        (p.2.required = true ↔
          c.default = DefaultArg.noDefault ∧ c.server_default = false ∧
            c.nullable = false ∧ c.primary_key = false)) ∧
      (c.primary_key = true → p.2.required = false) := by
  obtain ⟨c, hc, hname, -, hcp⟩ := generate_schema_mem h p hp
  cases hconv : schema_type_conversions c.pythonType with
  | none => simp [column_prop, hconv] at hcp
  | some t =>
    simp only [column_prop, hconv, Except.ok.injEq] at hcp
    refine ⟨c, hc, hname, ?_, ?_⟩
    · intro hreq
      rw [← hcp]
      by_cases hcond : c.default = DefaultArg.noDefault ∧ c.server_default = false ∧
          c.nullable = false ∧ c.primary_key = false
      · simp [hreq, hcond]
      · simp [hreq, hcond]
    · intro hpk
      rw [← hcp]
      simp [hpk]

/-- Witness for C1: the schema generated for the integer primary-key column
`idColumn` carries no `required` rule. -/
theorem generate_schema_required_iff_witness :
    ∃ c ∈ [idColumn],
      (("id", (⟨"integer", none, true, false, false⟩ : RuleSet)) :
          String × RuleSet).1 = c.name ∧
      ("required" ∉ ([] : List String) →
        ((⟨"integer", none, true, false, false⟩ : RuleSet).required = true ↔
          c.default = DefaultArg.noDefault ∧ c.server_default = false ∧
            c.nullable = false ∧ c.primary_key = false)) ∧
      (c.primary_key = true →
        (⟨"integer", none, true, false, false⟩ : RuleSet).required = false) :=
  generate_schema_required_iff [idColumn] [] [] []
    [("id", ⟨"integer", none, true, false, false⟩)] rfl
    ("id", ⟨"integer", none, true, false, false⟩) (by simp)

/-- C2: evaluation of `generate_schema` on the string column `emailColumn`
(declared maxlength 120).  Excluding the `readonly` rule kind suppresses the
`maxlength` rule, and excluding the `maxlength` rule kind leaves it present:
the guard at `utility.py` lines 201-206 tests `"readonly" not in
exclude_rules`, so the `maxlength` rule is not suppressible by its own kind,
contradicting the claim. -/
theorem generate_schema_maxlength_not_independent :
    generate_schema [emailColumn] [] [] ["readonly"] =
      .ok [("email", ⟨"string", none, false, true, true⟩)] ∧
    generate_schema [emailColumn] [] [] ["maxlength"] =
      .ok [("email", ⟨"string", some 120, false, true, true⟩)] :=
  ⟨rfl, rfl⟩

/-- C5: whenever some column selected by the include/exclude filters has a
python type with no entry in `schema_type_conversions`, `generate_schema`
fails with the `LookupError` message and produces no schema at all — the
column is not silently skipped and no partial schema is returned. -/
theorem generate_schema_unsupported_type_aborts
    (cols : List Column) (incl excl ers : List String)
    (h : ∃ c ∈ cols,
      ¬ ((incl.length > 0 ∧ c.name ∉ incl) ∨ c.name ∈ excl) ∧
      schema_type_conversions c.pythonType = none) :
    generate_schema cols incl excl ers =
      .error "Unable to determine the column type" := by
  induction cols with
  | nil => simp at h
  | cons c rest ih =>
    obtain ⟨c', hc', hsel, hconv⟩ := h
    rcases List.mem_cons.mp hc' with rfl | htail
    · rw [generate_schema, if_neg hsel]
      simp [column_prop, hconv]
    · by_cases hskip : (incl.length > 0 ∧ c.name ∉ incl) ∨ c.name ∈ excl
      · rw [generate_schema, if_pos hskip]
        exact ih ⟨c', htail, hsel, hconv⟩
      · rw [generate_schema, if_neg hskip]
        cases hcp : column_prop ers c with
        | error e =>
          cases hco : schema_type_conversions c.pythonType with
          | none =>
            simp only [column_prop, hco, Except.error.injEq] at hcp
            rw [← hcp]
          | some t => simp [column_prop, hco] at hcp
        | ok rs =>
          rw [ih ⟨c', htail, hsel, hconv⟩]

/-- Witness for C5: a model containing the unmapped-type column `scoreColumn`
makes `generate_schema` abort with the `LookupError` message. -/
theorem generate_schema_unsupported_type_aborts_witness :
    generate_schema [emailColumn, scoreColumn] [] [] [] =
      .error "Unable to determine the column type" :=
  generate_schema_unsupported_type_aborts [emailColumn, scoreColumn] [] [] []
    ⟨scoreColumn, by simp, by simp, rfl⟩


/-- C3: for every schema containing a `unique` rule on some field and every
document, a validator constructed without a model class fails with the
configuration error (`RuntimeError` in the source, the spec's
`ConfigurationError`) before any field is checked: the result is the error
alone, with no violation list. -/
theorem validate_without_lookup_fails
    (schema : List (String × RuleSet)) (document : List (String × Value))
    (model : Option Nat) (update : Bool)
    (h : ∃ p ∈ schema, p.2.unique = true) :
    validate schema none document model update = .error uniqueRuleErrorMsg := by
  rw [validate, if_pos]
  exact ⟨by simpa [List.any_eq_true] using h, rfl⟩

/-- Witness for C3: a schema with a unique `email` rule and a validator with
no model class error out on a document that does not even mention `email`. -/
theorem validate_without_lookup_fails_witness :
    validate [("email", ⟨"string", none, false, false, true⟩)] none
      [("x", Value.vint 1)] none false = .error uniqueRuleErrorMsg :=
  validate_without_lookup_fails
    [("email", ⟨"string", none, false, false, true⟩)] [("x", Value.vint 1)] none false
    ⟨("email", ⟨"string", none, false, false, true⟩), by simp, rfl⟩

/-- C4: with a lookup capability installed, `_validate_unique` records a
violation on the field iff the lookup returns a match and (no update is in
progress, or the match is not identical to the current instance). -/
theorem validate_unique_violation_iff
    (lookup : Lookup) (update : Bool) (model : Option Nat)
    (field : String) (value : Value) :
    (∃ msg, validate_unique (some lookup) update model true field value =
      .ok [(field, msg)]) ↔
    (∃ found, lookup field value = some found ∧
      (update = false ∨ some found ≠ model)) := by
  rw [validate_unique]
  cases hl : lookup field value with
  | none => simp [hl]
  | some found =>
    by_cases hc : update = false ∨ some found ≠ model
    · simp [hl, hc]
    · simp [hl, hc]


/-- Every key of the relationship part of an export is not excluded and
belongs to some loaded (non-unloaded) relationship entry. -/
theorem exportRels_keys {g ex : List String} {rels : List (String × RelProp)}
    {key : String} (h : key ∈ (exportRels g ex rels).map Prod.fst) :
    key ∉ ex ∧ ∃ rp, (key, rp) ∈ rels ∧ rp ≠ RelProp.unloaded := by
  induction rels with
  | nil => simp [exportRels] at h
  | cons kr rest ih =>
    obtain ⟨k, rp⟩ := kr
    cases rp with
    | unloaded =>
      rw [exportRels] at h
      obtain ⟨hex, rp', hmem, hne⟩ := ih h
      exact ⟨hex, rp', List.mem_cons_of_mem _ hmem, hne⟩
    | loadedNone =>
      rw [exportRels] at h
      rw [List.map_append, List.mem_append] at h
      rcases h with h | h
      · by_cases hex : k ∈ ex
        · rw [if_pos hex] at h
          simp at h
        · rw [if_neg hex] at h
          simp only [List.map_cons, List.map_nil, List.mem_singleton] at h
          subst h
          exact ⟨hex, RelProp.loadedNone, List.mem_cons_self _ _, by simp⟩
      · obtain ⟨hex, rp', hmem, hne⟩ := ih h
        exact ⟨hex, rp', List.mem_cons_of_mem _ hmem, hne⟩
    | custom v =>
      rw [exportRels] at h
      rw [List.map_append, List.mem_append] at h
      rcases h with h | h
      · by_cases hex : k ∈ ex
        · rw [if_pos hex] at h
          simp at h
        · rw [if_neg hex] at h
          simp only [List.map_cons, List.map_nil, List.mem_singleton] at h
          subst h
          exact ⟨hex, RelProp.custom v, List.mem_cons_self _ _, by simp⟩
      · obtain ⟨hex, rp', hmem, hne⟩ := ih h
        exact ⟨hex, rp', List.mem_cons_of_mem _ hmem, hne⟩
    | loadedOne o =>
      rw [exportRels] at h
      rw [List.map_append, List.mem_append] at h
      rcases h with h | h
      · by_cases hex : k ∈ ex
        · rw [if_pos hex] at h
          simp at h
        · rw [if_neg hex] at h
          simp only [List.map_cons, List.map_nil, List.mem_singleton] at h
          subst h
          exact ⟨hex, RelProp.loadedOne o, List.mem_cons_self _ _, by simp⟩
      · obtain ⟨hex, rp', hmem, hne⟩ := ih h
        exact ⟨hex, rp', List.mem_cons_of_mem _ hmem, hne⟩
    | loadedMany os =>
      cases os with
      | nil =>
        rw [exportRels] at h
        rw [List.map_append, List.mem_append] at h
        rcases h with h | h
        · by_cases hex : k ∈ ex
          · rw [if_pos hex] at h
            simp at h
          · rw [if_neg hex] at h
            simp only [List.map_cons, List.map_nil, List.mem_singleton] at h
            subst h
            exact ⟨hex, RelProp.loadedMany [], List.mem_cons_self _ _, by simp⟩
        · obtain ⟨hex, rp', hmem, hne⟩ := ih h
          exact ⟨hex, rp', List.mem_cons_of_mem _ hmem, hne⟩
      | cons o os' =>
        rw [exportRels] at h
        rw [List.map_append, List.mem_append] at h
        rcases h with h | h
        · by_cases hex : k ∈ ex
          · rw [if_pos hex] at h
            simp at h
          · rw [if_neg hex] at h
            simp only [List.map_cons, List.map_nil, List.mem_singleton] at h
            subst h
            exact ⟨hex, RelProp.loadedMany (o :: os'), List.mem_cons_self _ _, by simp⟩
        · obtain ⟨hex, rp', hmem, hne⟩ := ih h
          exact ⟨hex, rp', List.mem_cons_of_mem _ hmem, hne⟩

/-- An entry of the relationship export of the tail is an entry of the
relationship export of the whole list. -/
theorem exportRels_mem_tail (g ex : List String) (kr : String × RelProp)
    (rest : List (String × RelProp)) (p : String × Value)
    (hp : p ∈ exportRels g ex rest) : p ∈ exportRels g ex (kr :: rest) := by
  obtain ⟨k, rp⟩ := kr
  cases rp with
  | unloaded => rw [exportRels]; exact hp
  | loadedNone => rw [exportRels]; exact List.mem_append_right _ hp
  | custom v => rw [exportRels]; exact List.mem_append_right _ hp
  | loadedOne o => rw [exportRels]; exact List.mem_append_right _ hp
  | loadedMany os =>
    cases os with
    | nil => rw [exportRels]; exact List.mem_append_right _ hp
    | cons o os' => rw [exportRels]; exact List.mem_append_right _ hp

/-- A loaded, not-excluded to-one relationship holding `None` contributes an
explicit `(key, None)` entry to the relationship export. -/
theorem exportRels_mem_loadedNone (g ex : List String)
    {rels : List (String × RelProp)} {key : String}
    (h : (key, RelProp.loadedNone) ∈ rels) (hk : key ∉ ex) :
    (key, Value.vnone) ∈ exportRels g ex rels := by
  induction rels with
  | nil => simp at h
  | cons kr rest ih =>
    rcases List.mem_cons.mp h with heq | htail
    · rw [← heq, exportRels, if_neg hk]
      simp
    · exact exportRels_mem_tail g ex kr rest _ (ih htail)

/-- A loaded, not-excluded, empty to-many relationship contributes an
explicit `(key, None)` entry to the relationship export. -/
theorem exportRels_mem_loadedManyNil (g ex : List String)
    {rels : List (String × RelProp)} {key : String}
    (h : (key, RelProp.loadedMany []) ∈ rels) (hk : key ∉ ex) :
    (key, Value.vnone) ∈ exportRels g ex rels := by
  induction rels with
  | nil => simp at h
  | cons kr rest ih =>
    rcases List.mem_cons.mp h with heq | htail
    · rw [← heq, exportRels, if_neg hk]
      simp
    · exact exportRels_mem_tail g ex kr rest _ (ih htail)

/-- A loaded, not-excluded, non-empty to-many relationship contributes the
list of member exports to the relationship export. -/
theorem exportRels_mem_loadedManyCons (g ex : List String)
    {rels : List (String × RelProp)} {key : String} {o : Obj} {os : List Obj}
    (h : (key, RelProp.loadedMany (o :: os)) ∈ rels) (hk : key ∉ ex) :
    (key, Value.vlist (exportMany g (o :: os))) ∈ exportRels g ex rels := by
  induction rels with
  | nil => simp at h
  | cons kr rest ih =>
    rcases List.mem_cons.mp h with heq | htail
    · rw [← heq, exportRels, if_neg hk]
      simp
    · exact exportRels_mem_tail g ex kr rest _ (ih htail)

/-- `exportMany` is the pointwise generic export of the members. -/
theorem exportMany_eq_map (g : List String) (os : List Obj) :
    exportMany g os = os.map (fun m => Value.vdict (exportObj g m [] [])) := by
  induction os with
  | nil => rw [exportMany]; rfl
  | cons o os' ih => rw [exportMany, ih]; rfl

/-- Inversion for single-instance export: every entry either comes from a
selected, not-excluded column (with the persisted/unpersisted value policy)
or — only for persisted instances — from the relationship walk. -/
theorem exportObj_mem {g incl excl : List String} {persisted : Bool}
    {cols : List (Column × Value)} {rels : List (String × RelProp)}
    {p : String × Value}
    (hp : p ∈ exportObj g (Obj.mk persisted cols rels) incl excl) :
    (∃ cv ∈ cols, p.1 = cv.1.name ∧ cv.1.name ∉ excl ++ g ∧
      p.2 = (if persisted = true then cv.2
             else if cv.2.isNone then get_column_default cv.1 else cv.2)) ∨
    (persisted = true ∧ p ∈ exportRels g (excl ++ g) rels) := by
  cases persisted with
  | false =>
    simp only [exportObj, Bool.false_eq_true, if_false] at hp
    left
    obtain ⟨cv, hcv, heq⟩ := List.mem_filterMap.mp hp
    by_cases hsel : (incl = [] ∨ cv.1.name ∈ incl) ∧ cv.1.name ∉ excl ++ g
    · rw [if_pos hsel] at heq
      injection heq with heq'
      refine ⟨cv, hcv, ?_, hsel.2, ?_⟩
      · rw [← heq']
      · rw [← heq']
        simp
    · rw [if_neg hsel] at heq
      exact absurd heq (by simp)
  | true =>
    simp only [exportObj, if_true] at hp
    rcases List.mem_append.mp hp with h | h
    · left
      obtain ⟨cv, hcv, heq⟩ := List.mem_filterMap.mp h
      by_cases hsel : (incl = [] ∨ cv.1.name ∈ incl) ∧ cv.1.name ∉ excl ++ g
      · rw [if_pos hsel] at heq
        injection heq with heq'
        refine ⟨cv, hcv, ?_, hsel.2, ?_⟩
        · rw [← heq']
        · rw [← heq']
          simp
      · rw [if_neg hsel] at heq
        exact absurd heq (by simp)
    · exact Or.inr ⟨rfl, h⟩

/-- A selected, not-excluded column always contributes its entry to the
single-instance export. -/
theorem exportObj_col_mem_of {g incl excl : List String} {persisted : Bool}
    {cols : List (Column × Value)} {rels : List (String × RelProp)}
    {cv : Column × Value} (hcv : cv ∈ cols)
    (hsel : (incl = [] ∨ cv.1.name ∈ incl) ∧ cv.1.name ∉ excl ++ g) :
    (cv.1.name,
      if persisted = true then cv.2
      else if cv.2.isNone then get_column_default cv.1 else cv.2) ∈
      exportObj g (Obj.mk persisted cols rels) incl excl := by
  cases persisted with
  | false =>
    simp only [exportObj, Bool.false_eq_true, if_false]
    exact List.mem_filterMap.mpr ⟨cv, hcv, by rw [if_pos hsel]⟩
  | true =>
    simp only [exportObj, if_true]
    exact List.mem_append_left _ (List.mem_filterMap.mpr ⟨cv, hcv, by rw [if_pos hsel]⟩)

/-- An entry of the relationship export is an entry of the persisted
single-instance export. -/
theorem exportObj_rel_mem {g incl excl : List String}
    {cols : List (Column × Value)} {rels : List (String × RelProp)}
    {p : String × Value} (h : p ∈ exportRels g (excl ++ g) rels) :
    p ∈ exportObj g (Obj.mk true cols rels) incl excl := by
  simp only [exportObj, if_true]
  exact List.mem_append_right _ h


/-- C6: exporting an unpersisted instance emits, for every selected
not-excluded column, the live value when it is not `None` and otherwise the
column's static scalar default (`None` when no scalar default exists); every
emitted entry arises this way; and the unpersisted `User` example exports as
`{id: None, email: None, active: False}`. -/
theorem export_unpersisted_defaults
    (g incl excl : List String) (cols : List (Column × Value))
    (rels : List (String × RelProp)) :
    (∀ cv ∈ cols, ((incl = [] ∨ cv.1.name ∈ incl) ∧ cv.1.name ∉ excl ++ g) →
      (cv.1.name, if cv.2.isNone then get_column_default cv.1 else cv.2) ∈
        exportObj g (Obj.mk false cols rels) incl excl) ∧
    (∀ p ∈ exportObj g (Obj.mk false cols rels) incl excl,
      ∃ cv ∈ cols, p.1 = cv.1.name ∧
        p.2 = (if cv.2.isNone then get_column_default cv.1 else cv.2)) ∧
    exportObj [] userUnpersisted [] [] =
      [("id", Value.vnone), ("email", Value.vnone), ("active", Value.vbool false)] := by
  refine ⟨?_, ?_, rfl⟩
  · intro cv hcv hsel
    have h := @exportObj_col_mem_of g incl excl false cols rels cv hcv hsel
    simpa using h
  · intro p hp
    rcases exportObj_mem hp with ⟨cv, hcv, h1, -, h3⟩ | ⟨hper, -⟩
    · refine ⟨cv, hcv, h1, ?_⟩
      rw [h3]
      simp
    · exact absurd hper (by simp)

/-- Witness for C6: the unpersisted `active` column with live value `None`
exports as its scalar default `False`. -/
theorem export_unpersisted_defaults_witness :
    ("active", Value.vbool false) ∈
      exportObj [] (Obj.mk false [(activeColumn, Value.vnone)] []) [] [] := by
  have h := (export_unpersisted_defaults [] [] [] [(activeColumn, Value.vnone)] []).1
    (activeColumn, Value.vnone) (by simp) (by simp)
  simpa using h

/-- C7: in the export of a persisted instance, a key whose every relationship
entry is unloaded (and that names no column) never appears; and a loaded,
not-excluded to-one relationship holding `None` appears with an explicit
`None` value. -/
theorem export_persisted_relationships
    (g incl excl : List String) (cols : List (Column × Value))
    (rels : List (String × RelProp)) (key : String) :
    ((∀ rp, (key, rp) ∈ rels → rp = RelProp.unloaded) →
      key ∉ cols.map (fun cv => cv.1.name) →
      key ∉ (exportObj g (Obj.mk true cols rels) incl excl).map Prod.fst) ∧
    ((key, RelProp.loadedNone) ∈ rels → key ∉ excl ++ g →
      (key, Value.vnone) ∈ exportObj g (Obj.mk true cols rels) incl excl) := by
  constructor
  · intro hall hcol hmem
    rw [List.mem_map] at hmem
    obtain ⟨p, hp, hkey⟩ := hmem
    rcases exportObj_mem hp with ⟨cv, hcv, h1, -, -⟩ | ⟨-, hrel⟩
    · exact hcol (List.mem_map.mpr ⟨cv, hcv, by rw [← h1]; exact hkey⟩)
    · have hk : key ∈ (exportRels g (excl ++ g) rels).map Prod.fst :=
        List.mem_map.mpr ⟨p, hrel, hkey⟩
      obtain ⟨-, rp, hmem', hne⟩ := exportRels_keys hk
      exact hne (hall rp hmem')
  · intro h hk
    exact exportObj_rel_mem (exportRels_mem_loadedNone g (excl ++ g) h hk)

/-- Witness for C7: a persisted instance with a single loaded-but-`None`
relationship `owner` exports it as an explicit `None` entry. -/
theorem export_persisted_relationships_witness :
    ("owner", Value.vnone) ∈
      exportObj [] (Obj.mk true [] [("owner", RelProp.loadedNone)]) [] [] :=
  (export_persisted_relationships [] [] [] [] [("owner", RelProp.loadedNone)] "owner").2
    (by simp) (by simp)

/-- C8 (counterexample): a persisted instance whose loaded to-many
relationship `posts` is empty exports `posts` as `None`, not as the empty
ordered sequence: the empty `InstrumentedList` is falsy, so `elif rproperty:`
at `utility.py` line 124 leaves the initial `None` in place. -/
theorem export_empty_to_many_is_none :
    export_from_sqla_object postsEmptyObj [] [] = [("posts", Value.vnone)] ∧
    Value.vnone ≠ Value.vlist [] :=
  ⟨rfl, by simp⟩

/-- C8 (amended): a loaded, not-excluded, non-empty to-many relationship of a
persisted instance exports as the ordered sequence of the recursive exports
of its members, while a loaded empty to-many collection exports as explicit
`None`. -/
theorem export_loaded_to_many
    (g incl excl : List String) (cols : List (Column × Value))
    (rels : List (String × RelProp)) (key : String) :
    (∀ (o : Obj) (os : List Obj),
      (key, RelProp.loadedMany (o :: os)) ∈ rels → key ∉ excl ++ g →
      (key, Value.vlist ((o :: os).map (fun m => Value.vdict (exportObj g m [] [])))) ∈
        exportObj g (Obj.mk true cols rels) incl excl) ∧
    ((key, RelProp.loadedMany []) ∈ rels → key ∉ excl ++ g →
      (key, Value.vnone) ∈ exportObj g (Obj.mk true cols rels) incl excl) := by
  constructor
  · intro o os hmem hk
    have h1 := exportRels_mem_loadedManyCons g (excl ++ g) hmem hk
    rw [exportMany_eq_map] at h1
    exact exportObj_rel_mem h1
  · intro h hk
    exact exportObj_rel_mem (exportRels_mem_loadedManyNil g (excl ++ g) h hk)

/-- Witness for C8 (amended): a persisted instance with one loaded to-many
member exports `posts` as the singleton list of that member's export. -/
theorem export_loaded_to_many_witness :
    ("posts", Value.vlist [Value.vdict (exportObj [] (Obj.mk true [] []) [] [])]) ∈
      exportObj [] (Obj.mk true [] [("posts", RelProp.loadedMany [Obj.mk true [] []])])
        [] [] := by
  have h := (export_loaded_to_many [] [] [] []
      [("posts", RelProp.loadedMany [Obj.mk true [] []])] "posts").1
    (Obj.mk true [] []) [] (by simp) (by simp)
  simpa using h

/-- C9: the globally configured exporter (`ExportData(exclude=("org_id",))`)
never emits `org_id` as a key, for any instance and any caller-supplied
include and exclude lists — in particular even when `org_id` is in the
include list. -/
theorem export_never_contains_org_id (obj : Obj) (incl excl : List String) :
    "org_id" ∉ (export_from_sqla_object obj incl excl).map Prod.fst := by
  obtain ⟨persisted, cols, rels⟩ := obj
  intro hmem
  rw [List.mem_map] at hmem
  obtain ⟨p, hp, hkey⟩ := hmem
  rw [export_from_sqla_object] at hp
  rcases exportObj_mem hp with ⟨cv, -, h1, h2, -⟩ | ⟨-, hrel⟩
  · refine h2 ?_
    rw [← h1, hkey]
    exact List.mem_append_right _ (by simp)
  · have hk : "org_id" ∈ (exportRels ["org_id"] (excl ++ ["org_id"]) rels).map Prod.fst :=
      List.mem_map.mpr ⟨p, hrel, hkey⟩
    obtain ⟨hex, -⟩ := exportRels_keys hk
    exact hex (List.mem_append_right _ (by simp))


/-- One step of `import_into_sqla_object`: processing the head key either
updates the attribute (when the key is a column name) or leaves the instance
untouched. -/
theorem import_cons (columns : List String) (inst : String → Value)
    (kv : String × Value) (rest : List (String × Value)) :
    import_into_sqla_object columns inst (kv :: rest) =
      import_into_sqla_object columns
        (if kv.1 ∈ columns then (fun n => if n = kv.1 then kv.2 else inst n) else inst)
        rest := rfl

/-- An attribute named by no key of the document keeps its value. -/
theorem import_unchanged (columns : List String) (data : List (String × Value))
    (name : String) (h : name ∉ data.map Prod.fst) :
    ∀ inst, import_into_sqla_object columns inst data name = inst name := by
  induction data with
  | nil => intro inst; rfl
  | cons kv rest ih =>
    intro inst
    simp only [List.map_cons, List.mem_cons, not_or] at h
    rw [import_cons, ih h.2]
    by_cases hc : kv.1 ∈ columns
    · simp [hc, h.1]
    · simp [hc]

/-- A document key that is not a column name is silently ignored: the
attribute keeps its value. -/
theorem import_not_column (columns : List String) (data : List (String × Value))
    (name : String) (h : name ∉ columns) :
    ∀ inst, import_into_sqla_object columns inst data name = inst name := by
  induction data with
  | nil => intro inst; rfl
  | cons kv rest ih =>
    intro inst
    rw [import_cons, ih]
    by_cases hc : kv.1 ∈ columns
    · simp only [if_pos hc]
      by_cases hn : name = kv.1
      · subst hn
        exact absurd hc h
      · simp [hn]
    · simp [hc]

/-- A document key that is a column name is assigned (document keys assumed
distinct, as for a python dict). -/
theorem import_assigns (columns : List String) (k : String) (v : Value)
    (hc : k ∈ columns) :
    ∀ data : List (String × Value), (data.map Prod.fst).Nodup → (k, v) ∈ data →
    ∀ inst, import_into_sqla_object columns inst data k = v := by
  intro data
  induction data with
  | nil =>
    intro _ hmem
    simp at hmem
  | cons kv rest ih =>
    intro hnd hmem inst
    simp only [List.map_cons, List.nodup_cons] at hnd
    rw [import_cons]
    rcases List.mem_cons.mp hmem with heq | htail
    · rw [← heq] at hnd ⊢
      rw [import_unchanged columns rest k hnd.1]
      simp [hc]
    · exact ih hnd.2 htail _

/-- C10: applying a validated document onto an instance assigns exactly the
document keys that are column names of the model — which are exactly the
keys of the generated schema — leaves every attribute not named by an
applied key unchanged, and silently ignores document keys outside the
schema (the application is a total function: no error). -/
theorem import_into_sqla_object_spec :
    (∀ (columns : List String) (inst : String → Value)
        (data : List (String × Value)) (k : String) (v : Value),
        k ∈ columns → (data.map Prod.fst).Nodup → (k, v) ∈ data →
        import_into_sqla_object columns inst data k = v) ∧
    (∀ (columns : List String) (inst : String → Value)
        (data : List (String × Value)) (name : String), name ∉ columns →
        import_into_sqla_object columns inst data name = inst name) ∧
    (∀ (columns : List String) (inst : String → Value)
        (data : List (String × Value)) (name : String), name ∉ data.map Prod.fst →
        import_into_sqla_object columns inst data name = inst name) ∧
    (∀ (cols : List Column) (ers : List String) (s : List (String × RuleSet)),
        generate_schema cols [] [] ers = .ok s →
        s.map Prod.fst = cols.map Column.name) := by
  refine ⟨?_, ?_, ?_, ?_⟩
  · intro columns inst data k v hc hnd hmem
    exact import_assigns columns k v hc data hnd hmem inst
  · intro columns inst data name h
    exact import_not_column columns data name h inst
  · intro columns inst data name h
    exact import_unchanged columns data name h inst
  · intro cols ers s h
    exact generate_schema_keys h

/-- Witness for C10: on a model with a single `email` column, the `email` key
is assigned and the unknown `rogue` key is silently ignored. -/
theorem import_into_sqla_object_spec_witness :
    import_into_sqla_object ["email"] (fun _ => Value.vnone)
      [("email", Value.vstr "a@b.com"), ("rogue", Value.vint 7)] "email" =
      Value.vstr "a@b.com" ∧
    import_into_sqla_object ["email"] (fun _ => Value.vnone)
      [("email", Value.vstr "a@b.com"), ("rogue", Value.vint 7)] "rogue" =
      Value.vnone :=
  ⟨import_into_sqla_object_spec.1 ["email"] (fun _ => Value.vnone)
      [("email", Value.vstr "a@b.com"), ("rogue", Value.vint 7)] "email"
      (Value.vstr "a@b.com") (by simp) (by simp) (by simp),
   import_into_sqla_object_spec.2.1 ["email"] (fun _ => Value.vnone)
      [("email", Value.vstr "a@b.com"), ("rogue", Value.vint 7)] "rogue"
      (by simp)⟩


/-- Witness for C4: a lookup that finds instance 1 on a create (no update)
yields a uniqueness violation on `email`. -/
theorem validate_unique_violation_iff_witness :
    ∃ msg, validate_unique (some (fun _ _ => some 1)) false none true "email"
      (Value.vstr "x") = .ok [("email", msg)] :=
  (validate_unique_violation_iff (fun _ _ => some 1) false none "email"
    (Value.vstr "x")).mpr ⟨1, rfl, Or.inl rfl⟩

/-- Witness for C9: even with `org_id` in the caller's include list and an
`org_id` column present, the global exporter emits no `org_id` key. -/
theorem export_never_contains_org_id_witness :
    "org_id" ∉ (export_from_sqla_object
      (Obj.mk true
        [(⟨"org_id", PyType.int, none, false, true, DefaultArg.noDefault, false, false⟩,
          Value.vint 5)] [])
      ["org_id"] []).map Prod.fst :=
  export_never_contains_org_id
    (Obj.mk true
      [(⟨"org_id", PyType.int, none, false, true, DefaultArg.noDefault, false, false⟩,
        Value.vint 5)] [])
    ["org_id"] []

end StranalApp
